import Mathlib

/-!
Verification of the qubit message service (Go): the message domain model and
its creation-time validation (`service/message/domain.go`), the
domain/persistence mappers (`service/message/mapper.go`), the repository
operations (`env/postgres/messages/repository.go`), the dispatch cycle
(`service/message/service.go`, `ProcessUnsentMessages`), and the recurring
scheduler (`pkg/scheduler/scheduler.go`).

Modelling conventions:
- Go strings are `List Char` (one `Char` per unit; `len` is `List.length`).
- `time.Time` is `Nat` (only ordering and equality of timestamps matter).
- `int64` ids are `Int`.
- Go `nil` pointers are `Option.none`; `*T` fields are `Option T`.
- Fallible Go functions returning `error` become `Except`-valued functions.
-/

deriving instance DecidableEq for Except

namespace Qubit

/-! ### Persistence data model — `env/postgres/messages/model.go`

`Message` there is a pure data structure mirroring the `messages` table:
`id SERIAL, phone_number VARCHAR(20), content VARCHAR(500),
created_at TIMESTAMP, message_id TEXT NULL, processed_at TIMESTAMP NULL`. -/

namespace messages

structure Message where
  id : Int
  phoneNumber : List Char
  content : List Char
  createdAt : Nat
  messageID : Option (List Char)
  processedAt : Option Nat
deriving DecidableEq, Repr

end messages

/-! ### Domain model and validation — `service/message/domain.go` -/

namespace message

/-- `MaxContentLength = 500` from `domain.go`. -/
def MaxContentLength : Nat := 500

/-- The domain `Message` entity (same fields as the persistence model). -/
structure Message where
  id : Int
  phoneNumber : List Char
  content : List Char
  createdAt : Nat
  messageID : Option (List Char)
  processedAt : Option Nat
deriving DecidableEq, Repr

/-- The four distinct errors `Validate` can return, one per
`fmt.Errorf` site in `domain.go`. -/
inductive ValidationError
  | phoneRequired
  | phoneFormat
  | contentRequired
  | contentTooLong
deriving DecidableEq, Repr

/-- `[1-9]`: an ASCII digit other than `0`. -/
def isNonZeroDigit (c : Char) : Bool :=
  decide ('1' ≤ c) && decide (c ≤ '9')

/-- `\d`: an ASCII digit. -/
def isAsciiDigit (c : Char) : Bool :=
  decide ('0' ≤ c) && decide (c ≤ '9')

/-- The part `[1-9]\d{1,14}` of `phoneRegex`: a non-zero digit followed by
between 1 and 14 digits. -/
def phoneBody : List Char → Bool
  | [] => false
  | c :: rest =>
    isNonZeroDigit c && rest.all isAsciiDigit &&
      decide (1 ≤ rest.length) && decide (rest.length ≤ 14)

/-- `phoneRegex = ^\+?[1-9]\d{1,14}$` from `domain.go`: an optional leading
`+` (which `[1-9]` can never match, so the alternative is unambiguous),
then `[1-9]\d{1,14}`, anchored at both ends. -/
def phoneRegexMatches : List Char → Bool
  | '+' :: rest => phoneBody rest
  | s => phoneBody s

/-- `(*Message).Validate` from `domain.go`: empty phone, then regex, then
empty content, then content length against `MaxContentLength`, in that
order; first failing check decides the error. -/
def Validate (m : Message) : Except ValidationError Unit :=
  if m.phoneNumber = [] then .error .phoneRequired
  else if ¬ phoneRegexMatches m.phoneNumber then .error .phoneFormat
  else if m.content = [] then .error .contentRequired
  else if MaxContentLength < m.content.length then .error .contentTooLong
  else .ok ()

end message

/-! ### Domain/persistence mappers — `service/message/mapper.go`

Both mappers take a pointer and return a pointer, sending `nil` to `nil`,
so they are modelled on `Option`. -/

/-- The field-for-field copy behind `ToDomain` (the non-nil branch). -/
def toDomainRow (m : messages.Message) : message.Message :=
  { id := m.id
    phoneNumber := m.phoneNumber
    content := m.content
    createdAt := m.createdAt
    messageID := m.messageID
    processedAt := m.processedAt }

/-- The field-for-field copy behind `ToPostgres` (the non-nil branch). -/
def toPostgresRow (m : message.Message) : messages.Message :=
  { id := m.id
    phoneNumber := m.phoneNumber
    content := m.content
    createdAt := m.createdAt
    messageID := m.messageID
    processedAt := m.processedAt }

/-- `ToDomain` from `mapper.go`: field-for-field copy, `nil ↦ nil`. -/
def ToDomain : Option messages.Message → Option message.Message
  | none => none
  | some m => some (toDomainRow m)

/-- `ToPostgres` from `mapper.go`: field-for-field copy, `nil ↦ nil`. -/
def ToPostgres : Option message.Message → Option messages.Message
  | none => none
  | some m => some (toPostgresRow m)

/-- `ToDomainSlice` from `mapper.go`, restricted to the slices the service
actually passes (rows scanned from query results, never nil pointers):
element-wise `ToDomain`. -/
def ToDomainSlice (l : List messages.Message) : List message.Message :=
  l.map toDomainRow

/-! ### Repository operations — `env/postgres/messages/repository.go`

The store is modelled as the list of rows of the `messages` table. A
transaction is a working copy of that list: reads and writes inside the
cycle act on the working copy, and `Commit` makes it the durable store
while `Rollback` discards it. -/

/-- `ListSent`: `WHERE processed_at IS NOT NULL ORDER BY created_at ASC`,
with `limit = 0` meaning no `LIMIT` clause. -/
def ListSent (store : List messages.Message) (limit : Nat) : List messages.Message :=
  let sorted := (store.filter (fun m => m.processedAt.isSome)).insertionSort
    (fun a b => a.createdAt ≤ b.createdAt)
  if limit = 0 then sorted else sorted.take limit

/-- `ListAndLockUnsent`: `WHERE processed_at IS NULL ORDER BY created_at ASC
LIMIT $1 FOR UPDATE SKIP LOCKED`. For a single claimer (no rows locked by
another in-flight transaction, the case the claims below exercise) this is:
pending rows, oldest first, up to `limit`. `insertionSort` refines the SQL
ordering, which leaves ties on `created_at` unspecified. -/
def ListAndLockUnsent (store : List messages.Message) (limit : Nat) : List messages.Message :=
  ((store.filter (fun m => m.processedAt.isNone)).insertionSort
    (fun a b => a.createdAt ≤ b.createdAt)).take limit

/-- The single-row effect of `UPDATE messages SET message_id = $1,
processed_at = $2 WHERE id = $3` on one row. -/
def setOutcome (mid : Option (List Char)) (pat : Option Nat) (id : Int)
    (m : messages.Message) : messages.Message :=
  if m.id = id then { m with messageID := mid, processedAt := pat } else m

/-- The error `UpdateWithTx` returns when `RowsAffected() == 0`
(`"message with id %d not found"`). -/
inductive UpdateError
  | notFound
deriving DecidableEq, Repr

/-- `UpdateWithTx`: runs the `UPDATE` on the transaction's working copy and
fails with `notFound` when no row matched the id. -/
def UpdateWithTx (ws : List messages.Message) (id : Int) (mid : Option (List Char))
    (pat : Option Nat) : Except UpdateError (List messages.Message) :=
  let affected := ws.countP (fun m => decide (m.id = id))
  if affected = 0 then .error .notFound
  else .ok (ws.map (setOutcome mid pat id))

/-- `Create`: `INSERT INTO messages (phone_number, content, created_at)
VALUES ($1, $2, $3) RETURNING id`. Only those three columns are written
(`message_id`/`processed_at` start NULL); the store assigns `nextId`; a
zero `CreatedAt` is replaced by the current time first. Returns the new
store and the inserted row (whose id Go writes back into `msg.ID`). -/
def RepoCreate (store : List messages.Message) (nextId : Int) (now : Nat)
    (m : messages.Message) : List messages.Message × messages.Message :=
  let createdAt := if m.createdAt = 0 then now else m.createdAt
  let row : messages.Message :=
    { id := nextId
      phoneNumber := m.phoneNumber
      content := m.content
      createdAt := createdAt
      messageID := none
      processedAt := none }
  (store ++ [row], row)

/-! ### Service layer — `service/message/service.go` -/

/-- The two ways `CreateMessage` can fail: its `"validation failed: %w"`
wrap of a `Validate` error, and its `"failed to create message: %w"` wrap
of an insert error. -/
inductive CreateError
  | validationFailed (e : message.ValidationError)
  | writeFailed
deriving DecidableEq, Repr

/-- Observable result of one `CreateMessage` call: the returned value or
error, the store afterwards, and whether the repository insert was
invoked at all. -/
structure CreateOutcome where
  result : Except CreateError message.Message
  store : List messages.Message
  insertCalled : Bool
deriving DecidableEq, Repr

/-- `CreateMessage` from `service.go`: build the domain message with
`CreatedAt = time.Now()`, validate, and only then insert `ToPostgres msg`;
on success the generated id is written back into the domain message.
`insertOk` injects the store's possible write failure. -/
def CreateMessage (store : List messages.Message) (nextId : Int) (insertOk : Bool)
    (phoneNumber content : List Char) (now : Nat) : CreateOutcome :=
  let msg : message.Message :=
    { id := 0
      phoneNumber := phoneNumber
      content := content
      createdAt := now
      messageID := none
      processedAt := none }
  match message.Validate msg with
  | .error e => ⟨.error (.validationFailed e), store, false⟩
  | .ok _ =>
    if insertOk then
      let p := RepoCreate store nextId now (toPostgresRow msg)
      ⟨.ok { msg with id := p.2.id }, p.1, true⟩
    else ⟨.error .writeFailed, store, true⟩

/-- What happened to one claimed item inside the batch loop: delivered and
recorded (`sent ref`), delivery failed (`sendFailed`: `SendMessage`
returned an error, no outcome recorded), or the outcome update affected
zero rows (`notFound`, `UpdateWithTx`'s error). -/
inductive ItemOutcome
  | sent (ref : List Char)
  | sendFailed
  | notFound
deriving DecidableEq, Repr

/-- `sendMessageWithTx` from `service.go`: invoke the webhook with the
item's phone number and content; on success record the returned reference
and the current time via `UpdateWithTx`. Any error leaves the working copy
unchanged and is reported to the caller (who logs it and continues). The
delivery transport is the oracle `send : phoneNumber → content → Option
deliveryRef`, `none` meaning a failed attempt. -/
def sendMessageWithTx (send : List Char → List Char → Option (List Char)) (now : Nat)
    (ws : List messages.Message) (m : message.Message) :
    List messages.Message × ItemOutcome :=
  match send m.phoneNumber m.content with
  | none => (ws, .sendFailed)
  | some ref =>
    match UpdateWithTx ws m.id (some ref) (some now) with
    | .error .notFound => (ws, .notFound)
    | .ok ws2 => (ws2, .sent ref)

/-- The `for _, msg := range unsentMessages` loop of
`ProcessUnsentMessages`: each item is attempted with `sendMessageWithTx`;
on error the loop logs and continues with the next item (it never aborts
the scope). Returns the final working copy and the per-item outcomes in
order. -/
def processBatch (send : List Char → List Char → Option (List Char)) (now : Nat) :
    List messages.Message → List message.Message →
    List messages.Message × List (Int × ItemOutcome)
  | ws, [] => (ws, [])
  | ws, m :: rest =>
    let p := sendMessageWithTx send now ws m
    let q := processBatch send now p.1 rest
    (q.1, (m.id, p.2) :: q.2)

/-- The three abort errors a dispatch cycle can return, one per
`fmt.Errorf` site on `ProcessUnsentMessages`' error paths. -/
inductive CycleError
  | beginFailed
  | claimFailed
  | commitFailed
deriving DecidableEq, Repr

/-- Failure injection and collaborators for one dispatch cycle: whether
`BeginTx`, `ListAndLockUnsent`'s query and `Commit` succeed, the delivery
oracle, and the current time used for `processed_at`. -/
structure CycleEnv where
  beginOk : Bool
  claimOk : Bool
  commitOk : Bool
  send : List Char → List Char → Option (List Char)
  now : Nat

/-- Observable result of one dispatch cycle: the returned value or error,
the durable store after the cycle (commit installs the working copy,
abort leaves the store as it was), the per-item outcomes of the batch
loop (empty iff no item was attempted, i.e. the transport was never
invoked), and whether `tx.Rollback` was explicitly called. -/
structure CycleOutcome where
  result : Except CycleError Unit
  store : List messages.Message
  outcomes : List (Int × ItemOutcome)
  rolledBack : Bool
deriving DecidableEq, Repr

/-- Lines 124–153 of `service.go`: the rest of the cycle once the claim
query has returned `claimed` against working copy `ws` (with `durable` the
store a failed commit falls back to). An empty claim commits the no-op
transaction; otherwise the batch loop runs over `ToDomainSlice claimed`
and the transaction commits. On either commit failure the `err` of
`if err := tx.Commit(ctx); err != nil` shadows the function-level `err`,
so the deferred rollback (which tests the function-level `err`) does not
fire: `rolledBack = false`. -/
def dispatchClaimed (env : CycleEnv) (durable ws : List messages.Message)
    (claimed : List messages.Message) : CycleOutcome :=
  if claimed.isEmpty then
    if env.commitOk then ⟨.ok (), ws, [], false⟩
    else ⟨.error .commitFailed, durable, [], false⟩
  else
    let p := processBatch env.send env.now ws (ToDomainSlice claimed)
    if env.commitOk then ⟨.ok (), p.1, p.2, false⟩
    else ⟨.error .commitFailed, durable, p.2, false⟩

/-- `ProcessUnsentMessages` from `service.go` (one cycle, the per-instance
mutex held): begin a transaction (failure: `beginFailed`, before the
deferred rollback is installed); claim with `ListAndLockUnsent` (failure:
`claimFailed`, the function-level `err` is set so the deferred rollback
fires); then `dispatchClaimed` on the claimed batch. The transaction's
working copy starts as a snapshot of the store. -/
def ProcessUnsentMessages (env : CycleEnv) (store : List messages.Message)
    (batchSize : Nat) : CycleOutcome :=
  if ¬ env.beginOk then ⟨.error .beginFailed, store, [], false⟩
  else if ¬ env.claimOk then ⟨.error .claimFailed, store, [], true⟩
  else dispatchClaimed env store store (ListAndLockUnsent store batchSize)

/-! #### Closed form of the batch loop

`processBatch` threads the working copy through the loop; the next two
definitions give its effect row by row, used to state and prove the
isolation properties. -/

/-- The effect of one loop iteration for item `m` on one row `r` of the
working copy: nothing when the delivery failed, otherwise the
`UPDATE ... WHERE id = m.id` applied to `r`. -/
def applySend (send : List Char → List Char → Option (List Char)) (now : Nat)
    (m : message.Message) (r : messages.Message) : messages.Message :=
  match send m.phoneNumber m.content with
  | some ref => setOutcome (some ref) (some now) m.id r
  | none => r

/-- The effect of the whole batch loop on one row: the iterations' row
effects applied in batch order. -/
def rowAfter (send : List Char → List Char → Option (List Char)) (now : Nat)
    (msgs : List message.Message) (r : messages.Message) : messages.Message :=
  msgs.foldl (fun r m => applySend send now m r) r

/-- The store's rows have pairwise distinct ids (the table's `SERIAL
PRIMARY KEY`). -/
def nodupIds (store : List messages.Message) : Prop :=
  (store.map messages.Message.id).Nodup

/-! ### Recurring trigger — `pkg/scheduler/scheduler.go`

The `Client` runs its loop in a goroutine (`go c.run()`); the loop selects
on `c.ticker.C` / `c.ctx.Done()`, re-reading both fields of the shared
client at every iteration, so every live loop observes the *latest*
ticker and context. The state tracked here is the number of live loop
goroutines — exactly the `sync.WaitGroup` counter `c.wg`. -/

namespace scheduler

/-- Abstract state of one scheduler `Client`: `loops` is the number of
live `run` goroutines (the value of the `c.wg` counter). The client is
Running iff `loops ≠ 0`. -/
structure ClientState where
  loops : Nat
deriving DecidableEq, Repr

/-- `Run()` from `scheduler.go`: a fresh client, no loop goroutine. -/
def Run : ClientState := ⟨0⟩

/-- The Running state of the spec's trigger state machine. -/
def Running (c : ClientState) : Prop := 0 < c.loops

/-- `Start` from `scheduler.go`: store the task and interval, replace
`c.ctx`/`c.cancel`/`c.ticker`, `c.wg.Add(1)`, `go c.run()`. Nothing here
signals an existing loop to exit — the previous `cancel` handle is
overwritten without being called — so a loop that was already live stays
live next to the new one. -/
def Start (c : ClientState) : ClientState := ⟨c.loops + 1⟩

/-- `Stop` from `scheduler.go`: `ticker.Stop()`, `cancel()` the current
context, `wg.Wait()`. Every live loop polls `c.ctx.Done()` through the
shared client, i.e. the context just cancelled, so all of them exit and
the wait returns with the counter at zero. -/
def Stop (_c : ClientState) : ClientState := ⟨0⟩

/-- State of the `taskRunning` try-lock: `running` counts task bodies
currently executing (the mutex is held iff this is nonzero) and `queued`
counts tick firings deferred to run later (the code never defers one: a
skipped tick just returns, so this stays `0`). -/
structure TaskState where
  running : Nat
  queued : Nat
deriving DecidableEq, Repr

/-- `processTask` from `scheduler.go`: `taskRunning.TryLock()` — when the
mutex is held (a task body is executing) the call returns immediately,
queueing nothing and starting nothing; otherwise the lock is taken and
the task body starts (it holds the lock until done: `defer
taskRunning.Unlock()`). -/
def processTask (s : TaskState) : TaskState :=
  if s.running = 0 then ⟨1, s.queued⟩ else s

/-- A task body completing releases the try-lock
(`defer taskRunning.Unlock()` as `processTask` returns). -/
def finishTask (s : TaskState) : TaskState := ⟨s.running - 1, s.queued⟩

/-- Events seen by the single-flight guard: a tick firing `processTask`
(the initial call on start, a ticker tick, or a call from any concurrent
loop — `TryLock` is atomic either way) and a task body completing. -/
inductive TaskEvent
  | tick
  | finish
deriving DecidableEq, Repr

/-- One event's effect on the try-lock state. -/
def taskStep (s : TaskState) : TaskEvent → TaskState
  | .tick => processTask s
  | .finish => finishTask s

/-- The try-lock state after a sequence of events, starting from the
fresh client (lock free, nothing queued). -/
def runTrace (tr : List TaskEvent) : TaskState :=
  tr.foldl taskStep ⟨0, 0⟩

end scheduler

/-- `StartScheduler` from `service.go` (lines 179–194): stop the
scheduler, update the configuration, start it with the new parameters.
The explicit `Stop` before `Start` is the service layer's own; the
trigger's `Start` does not perform one. -/
def StartScheduler (c : scheduler.ClientState) : scheduler.ClientState :=
  scheduler.Start (scheduler.Stop c)

/-! ## Theorems -/

/-! ### Shared helper lemmas -/

theorem phoneRegexMatches_nil : message.phoneRegexMatches [] = false := rfl

/-- `Validate` succeeds exactly when the phone number matches the regex
and the content is non-empty and within the cap (an empty phone number
never matches the regex, so the separate emptiness check adds nothing). -/
theorem validate_ok_iff (m : message.Message) :
    message.Validate m = .ok () ↔
      message.phoneRegexMatches m.phoneNumber = true ∧
      m.content ≠ [] ∧ m.content.length ≤ message.MaxContentLength := by
  unfold message.Validate
  split_ifs with h1 h2 h3 h4
  · simp only [false_iff]
    rintro ⟨hm, -, -⟩
    rw [h1, phoneRegexMatches_nil] at hm
    cases hm
  · simp only [false_iff]
    rintro ⟨-, hc, -⟩
    exact hc h3
  · simp only [false_iff]
    rintro ⟨-, -, hl⟩
    omega
  · exact iff_of_true rfl ⟨h2, h3, by omega⟩
  · simp only [false_iff]
    rintro ⟨hm, -, -⟩
    exact h2 hm

/-- Every row a claim returns is a pending row of the store. -/
theorem mem_claim_pending (store : List messages.Message) (limit : Nat)
    (m : messages.Message) (hm : m ∈ ListAndLockUnsent store limit) :
    m.processedAt = none ∧ m ∈ store := by
  unfold ListAndLockUnsent at hm
  have hsort := List.take_subset limit _ hm
  have hfilter :=
    (List.perm_insertionSort
      (fun a b : messages.Message => a.createdAt ≤ b.createdAt) _).subset hsort
  obtain ⟨hs, hp⟩ := List.mem_filter.mp hfilter
  exact ⟨Option.isNone_iff_eq_none.mp hp, hs⟩

/-- A pending row of the store is returned by a claim whose limit is at
least the size of the store. -/
theorem pending_mem_claim (store : List messages.Message)
    (m : messages.Message) (hm : m ∈ store) (hp : m.processedAt = none) :
    m ∈ ListAndLockUnsent store store.length := by
  unfold ListAndLockUnsent
  have hmem : m ∈ store.filter (fun m => m.processedAt.isNone) :=
    List.mem_filter.mpr ⟨hm, by simp [hp]⟩
  have hperm := List.perm_insertionSort
    (fun a b : messages.Message => a.createdAt ≤ b.createdAt)
    (store.filter (fun m => m.processedAt.isNone))
  have hlen : ((store.filter (fun m => m.processedAt.isNone)).insertionSort
      (fun a b => a.createdAt ≤ b.createdAt)).length ≤ store.length := by
    rw [hperm.length_eq]
    exact List.length_filter_le _ _
  rw [List.take_of_length_le hlen]
  exact hperm.mem_iff.mpr hmem

/-- Invariant of the single-flight try-lock: one step preserves "at most
one task body running, nothing queued". -/
theorem taskStep_inv (s : scheduler.TaskState) (e : scheduler.TaskEvent)
    (h : s.running ≤ 1 ∧ s.queued = 0) :
    (scheduler.taskStep s e).running ≤ 1 ∧ (scheduler.taskStep s e).queued = 0 := by
  obtain ⟨h1, h2⟩ := h
  cases e
  · show (scheduler.processTask s).running ≤ 1 ∧ (scheduler.processTask s).queued = 0
    unfold scheduler.processTask
    split_ifs
    · exact ⟨Nat.le_refl 1, h2⟩
    · exact ⟨h1, h2⟩
  · exact ⟨Nat.le_trans (Nat.sub_le s.running 1) h1, h2⟩

/-- The single-flight invariant holds after any event sequence. -/
theorem runTrace_inv (tr : List scheduler.TaskEvent) :
    (scheduler.runTrace tr).running ≤ 1 ∧ (scheduler.runTrace tr).queued = 0 := by
  have main : ∀ (evs : List scheduler.TaskEvent) (s : scheduler.TaskState),
      s.running ≤ 1 ∧ s.queued = 0 →
      (evs.foldl scheduler.taskStep s).running ≤ 1 ∧
        (evs.foldl scheduler.taskStep s).queued = 0 := by
    intro evs
    induction evs with
    | nil => exact fun s h => h
    | cons e rest ih => exact fun s h => ih (scheduler.taskStep s e) (taskStep_inv s e h)
  exact main tr ⟨0, 0⟩ ⟨Nat.zero_le 1, rfl⟩

/-! ### The claims -/

/-- C10: the domain/persistence mappers are mutually inverse — for every
non-nil domain `Message`, `ToDomain (ToPostgres m) = m` field for field,
symmetrically for every non-nil persistence record, and both mappers send
nil to nil. -/
theorem c10_mappers_mutually_inverse :
    (∀ m : message.Message, ToDomain (ToPostgres (some m)) = some m) ∧
    (∀ p : messages.Message, ToPostgres (ToDomain (some p)) = some p) ∧
    ToDomain none = none ∧ ToPostgres none = none :=
  ⟨fun _ => rfl, fun _ => rfl, rfl, rfl⟩

/-- C1 counterexample: the claim requires `Validate` to fail on
destination `"1234"`, but `"1234"` matches `^\+?[1-9]\d{1,14}$` (the plus
sign is optional), so `Validate` accepts it. -/
theorem c1_counterexample :
    message.Validate
      { id := 0, phoneNumber := "1234".data, content := "hello".data,
        createdAt := 0, messageID := none, processedAt := none } = .ok () := by
  decide

set_option maxRecDepth 4000 in
/-- C1 (amended): for every `Message`, `Validate` succeeds iff the
destination matches the international-phone pattern and the content is
non-empty and at most 500 units; a 500-unit payload is accepted and a
501-unit payload rejected; `"+1234567890"` is accepted and `"abc"`
rejected; but `"1234"` is accepted as well, since the pattern's leading
plus is optional. -/
theorem c1_validate_boundary :
    (∀ m : message.Message,
        message.Validate m = .ok () ↔
          message.phoneRegexMatches m.phoneNumber = true ∧
          m.content ≠ [] ∧ m.content.length ≤ message.MaxContentLength) ∧
    message.Validate
      { id := 0, phoneNumber := "+1234567890".data,
        content := List.replicate 500 'a', createdAt := 0,
        messageID := none, processedAt := none } = .ok () ∧
    message.Validate
      { id := 0, phoneNumber := "+1234567890".data,
        content := List.replicate 501 'a', createdAt := 0,
        messageID := none, processedAt := none } = .error .contentTooLong ∧
    message.Validate
      { id := 0, phoneNumber := "abc".data, content := "hello".data,
        createdAt := 0, messageID := none, processedAt := none } = .error .phoneFormat ∧
    message.Validate
      { id := 0, phoneNumber := "1234".data, content := "hello".data,
        createdAt := 0, messageID := none, processedAt := none } = .ok () :=
  ⟨validate_ok_iff, by decide, by decide, by decide, by decide⟩

/-- C3 counterexample: with the scheduler already Running (one live
loop), calling the trigger's own `Start` does not pass through Stopped —
it leaves two loop goroutines live. -/
theorem c3_counterexample :
    scheduler.Running (scheduler.Start scheduler.Run) ∧
    (scheduler.Start (scheduler.Start scheduler.Run)).loops = 2 :=
  ⟨Nat.zero_lt_one, rfl⟩

/-- C3 (amended): the trigger's own `Start` performs no implicit stop —
it adds a loop beside any live one — while the service-level
`StartScheduler` explicitly calls `Stop` (which ends every live loop)
before `Start`, so a restart through the service always ends with exactly
one execution loop. -/
theorem c3_restart_through_service :
    (∀ c, scheduler.Start c = ⟨c.loops + 1⟩) ∧
    (∀ c, scheduler.Stop c = ⟨0⟩) ∧
    (∀ c, StartScheduler c = ⟨1⟩) :=
  ⟨fun _ => rfl, fun _ => rfl, fun _ => rfl⟩

/-- C6: along every event sequence, at most one task invocation is in
progress at any instant and no skipped tick queues work; moreover a tick
arriving while a task body runs leaves the guard state entirely
unchanged. -/
theorem c6_single_flight :
    (∀ tr : List scheduler.TaskEvent,
        (scheduler.runTrace tr).running ≤ 1 ∧ (scheduler.runTrace tr).queued = 0) ∧
    (∀ n q : Nat, scheduler.taskStep ⟨n + 1, q⟩ .tick = ⟨n + 1, q⟩) :=
  ⟨runTrace_inv, fun n q => by simp [scheduler.taskStep, scheduler.processTask]⟩

/-- C5: when the claim query fails, the cycle returns `claimFailed` with
the rollback explicitly performed (the deferred rollback fires because
the function-level `err` is set), the durable store is unchanged (no
outcome write became durable), and every pending item of the store is
visible to a subsequent claim of sufficient limit. -/
theorem c5_claim_abort_rolls_back (env : CycleEnv) (store : List messages.Message)
    (batchSize : Nat) (hb : env.beginOk = true) (hc : env.claimOk = false) :
    ProcessUnsentMessages env store batchSize =
      ⟨.error .claimFailed, store, [], true⟩ ∧
    (∀ m ∈ store, m.processedAt = none →
      m ∈ ListAndLockUnsent (ProcessUnsentMessages env store batchSize).store
            store.length) := by
  have he : ProcessUnsentMessages env store batchSize =
      ⟨.error .claimFailed, store, [], true⟩ := by
    simp [ProcessUnsentMessages, hb, hc]
  refine ⟨he, fun m hm hp => ?_⟩
  rw [he]
  exact pending_mem_claim store m hm hp

/-- C5 witness: a cycle whose claim fails, over a store holding one
pending item, aborts with the scope rolled back and the store intact. -/
theorem c5_witness :
    ProcessUnsentMessages ⟨true, false, true, fun _ _ => none, 0⟩
      [{ id := 1, phoneNumber := "+123456".data, content := "hi".data,
         createdAt := 0, messageID := none, processedAt := none }] 2 =
      ⟨.error .claimFailed,
        [{ id := 1, phoneNumber := "+123456".data, content := "hi".data,
           createdAt := 0, messageID := none, processedAt := none }], [], true⟩ :=
  (c5_claim_abort_rolls_back ⟨true, false, true, fun _ _ => none, 0⟩
    [{ id := 1, phoneNumber := "+123456".data, content := "hi".data,
       createdAt := 0, messageID := none, processedAt := none }] 2 rfl rfl).1

/-- C7: when the claim returns no items and begin/commit succeed, the
cycle commits the no-op scope and returns success, with the store
unchanged and no item attempted (no transport call, no outcome). -/
theorem c7_empty_claim_commits (env : CycleEnv) (store : List messages.Message)
    (batchSize : Nat) (hb : env.beginOk = true) (hc : env.claimOk = true)
    (hk : env.commitOk = true) (he : ListAndLockUnsent store batchSize = []) :
    ProcessUnsentMessages env store batchSize = ⟨.ok (), store, [], false⟩ := by
  simp [ProcessUnsentMessages, dispatchClaimed, hb, hc, hk, he]

/-- C7 witness: a cycle over a store whose only item is already
completed claims nothing and returns success with the store unchanged. -/
theorem c7_witness :
    ProcessUnsentMessages ⟨true, true, true, fun _ _ => none, 0⟩
      [{ id := 1, phoneNumber := "+123456".data, content := "hi".data,
         createdAt := 0, messageID := some "m1".data, processedAt := some 3 }] 2 =
      ⟨.ok (),
        [{ id := 1, phoneNumber := "+123456".data, content := "hi".data,
           createdAt := 0, messageID := some "m1".data, processedAt := some 3 }],
        [], false⟩ :=
  c7_empty_claim_commits ⟨true, true, true, fun _ _ => none, 0⟩
    [{ id := 1, phoneNumber := "+123456".data, content := "hi".data,
       createdAt := 0, messageID := some "m1".data, processedAt := some 3 }] 2
    rfl rfl rfl (by decide)

/-- C9: creating an item whose destination fails the pattern or whose
payload is empty or over the cap returns a validation error before any
write — the store is unchanged and the repository insert is never
invoked. -/
theorem c9_invalid_create_no_write (store : List messages.Message) (nextId : Int)
    (insertOk : Bool) (phone content : List Char) (now : Nat)
    (h : ¬ (message.phoneRegexMatches phone = true ∧
            content ≠ [] ∧ content.length ≤ message.MaxContentLength)) :
    (∃ e, (CreateMessage store nextId insertOk phone content now).result =
        .error (.validationFailed e)) ∧
    (CreateMessage store nextId insertOk phone content now).store = store ∧
    (CreateMessage store nextId insertOk phone content now).insertCalled = false := by
  have hv : message.Validate
      { id := 0, phoneNumber := phone, content := content, createdAt := now,
        messageID := none, processedAt := none } ≠ .ok () := by
    intro hok
    exact h ((validate_ok_iff _).mp hok)
  cases hval : message.Validate
      { id := 0, phoneNumber := phone, content := content, createdAt := now,
        messageID := none, processedAt := none } with
  | ok u => exact absurd (by rw [hval]) hv
  | error e =>
    refine ⟨⟨e, ?_⟩, ?_, ?_⟩ <;> simp [CreateMessage, hval]

/-- C9 witness: creating with destination `"abc"` fails validation and
leaves the store untouched, the insert never invoked. -/
theorem c9_witness :
    (∃ e, (CreateMessage [] 1 true "abc".data "hi".data 5).result =
        .error (.validationFailed e)) ∧
    (CreateMessage [] 1 true "abc".data "hi".data 5).store = [] ∧
    (CreateMessage [] 1 true "abc".data "hi".data 5).insertCalled = false :=
  c9_invalid_create_no_write [] 1 true "abc".data "hi".data 5 (by decide)

/-- C8: a claim returns only pending rows of the store, at most `limit`
of them, oldest first — in particular for pending items created at
`t1 < t2 < t3` (listed in the store in any order, here `t3, t1, t2`), a
claim with limit 2 returns exactly the `t1` and `t2` items in that order,
never the `t3` item and never a completed one. -/
theorem c8_claim_oldest_pending_first :
    (∀ (store : List messages.Message) (limit : Nat) (m : messages.Message),
        m ∈ ListAndLockUnsent store limit → m.processedAt = none ∧ m ∈ store) ∧
    (∀ (store : List messages.Message) (limit : Nat),
        (ListAndLockUnsent store limit).length ≤ limit) ∧
    (∀ (t1 t2 t3 : Nat) (i1 i2 i3 : Int) (p1 p2 p3 a1 a2 a3 : List Char),
        t1 < t2 → t2 < t3 →
        ListAndLockUnsent
          [⟨i3, p3, a3, t3, none, none⟩, ⟨i1, p1, a1, t1, none, none⟩,
           ⟨i2, p2, a2, t2, none, none⟩] 2 =
          [⟨i1, p1, a1, t1, none, none⟩, ⟨i2, p2, a2, t2, none, none⟩]) := by
  refine ⟨mem_claim_pending, fun store limit => ?_, ?_⟩
  · unfold ListAndLockUnsent
    rw [List.length_take]
    exact Nat.min_le_left _ _
  · intro t1 t2 t3 i1 i2 i3 p1 p2 p3 a1 a2 a3 h12 h23
    unfold ListAndLockUnsent
    simp only [List.filter, Option.isNone_none, List.insertionSort, List.orderedInsert]
    rw [if_pos (Nat.le_of_lt h12)]
    simp only [List.orderedInsert]
    rw [if_neg (by omega), if_neg (by omega)]
    rfl

/-- C8 witness: three pending items created at times 1 < 2 < 3, stored
out of order; a claim with limit 2 returns the two oldest, in order. -/
theorem c8_witness :
    ListAndLockUnsent
      [⟨30, "+33".data, "c".data, 3, none, none⟩,
       ⟨10, "+11".data, "a".data, 1, none, none⟩,
       ⟨20, "+22".data, "b".data, 2, none, none⟩] 2 =
      [⟨10, "+11".data, "a".data, 1, none, none⟩,
       ⟨20, "+22".data, "b".data, 2, none, none⟩] :=
  c8_claim_oldest_pending_first.2.2 1 2 3 10 20 30
    "+11".data "+22".data "+33".data "a".data "b".data "c".data
    (by decide) (by decide)

/-- A failed delivery leaves the row effect at identity. -/
theorem applySend_of_none (send : List Char → List Char → Option (List Char)) (now : Nat)
    (m : message.Message) (r : messages.Message)
    (hs : send m.phoneNumber m.content = none) :
    applySend send now m r = r := by
  unfold applySend
  rw [hs]

/-- A successful delivery's row effect is the outcome `UPDATE`. -/
theorem applySend_of_some (send : List Char → List Char → Option (List Char)) (now : Nat)
    (m : message.Message) (r : messages.Message) (ref : List Char)
    (hs : send m.phoneNumber m.content = some ref) :
    applySend send now m r = setOutcome (some ref) (some now) m.id r := by
  unfold applySend
  rw [hs]

/-- An iteration for another item's id leaves a row unchanged. -/
theorem applySend_ne (send : List Char → List Char → Option (List Char)) (now : Nat)
    (m : message.Message) (r : messages.Message) (h : m.id ≠ r.id) :
    applySend send now m r = r := by
  unfold applySend
  cases hs : send m.phoneNumber m.content with
  | none => rfl
  | some ref =>
    simp only [setOutcome]
    rw [if_neg fun he => h he.symm]

/-- One loop iteration maps its row effect over the whole working copy
(when the `UPDATE` matches no row, both sides are the identity). -/
theorem sendMessageWithTx_store (send : List Char → List Char → Option (List Char))
    (now : Nat) (ws : List messages.Message) (m : message.Message) :
    (sendMessageWithTx send now ws m).1 = ws.map (applySend send now m) := by
  unfold sendMessageWithTx
  cases hs : send m.phoneNumber m.content with
  | none =>
    show ws = ws.map (applySend send now m)
    have hcong : ws.map (applySend send now m) = ws.map (fun r => r) :=
      List.map_congr_left (fun r _ => applySend_of_none send now m r hs)
    rw [hcong, List.map_id']
  | some ref =>
    dsimp only
    by_cases h0 : ws.countP (fun x => decide (x.id = m.id)) = 0
    · have hupd : UpdateWithTx ws m.id (some ref) (some now) = .error .notFound := by
        unfold UpdateWithTx
        rw [if_pos h0]
      rw [hupd]
      show ws = ws.map (applySend send now m)
      have hcong : ws.map (applySend send now m) = ws.map (fun r => r) := by
        apply List.map_congr_left
        intro x hx
        rw [applySend_of_some send now m x ref hs]
        have hne := List.countP_eq_zero.mp h0 x hx
        simp only [decide_eq_true_eq] at hne
        simp only [setOutcome]
        rw [if_neg hne]
      rw [hcong, List.map_id']
    · have hupd : UpdateWithTx ws m.id (some ref) (some now) =
          .ok (ws.map (setOutcome (some ref) (some now) m.id)) := by
        unfold UpdateWithTx
        rw [if_neg h0]
      rw [hupd]
      show ws.map (setOutcome (some ref) (some now) m.id) = ws.map (applySend send now m)
      exact List.map_congr_left (fun x _ => (applySend_of_some send now m x ref hs).symm)

/-- The batch loop's final working copy is the row-wise closed form. -/
theorem processBatch_store (send : List Char → List Char → Option (List Char))
    (now : Nat) (msgs : List message.Message) :
    ∀ ws : List messages.Message,
      (processBatch send now ws msgs).1 = ws.map (rowAfter send now msgs) := by
  induction msgs with
  | nil =>
    intro ws
    show ws = ws.map (rowAfter send now [])
    rw [show rowAfter send now [] = fun r => r from rfl, List.map_id']
  | cons m rest ih =>
    intro ws
    have h1 : (processBatch send now ws (m :: rest)).1 =
        (processBatch send now (sendMessageWithTx send now ws m).1 rest).1 := rfl
    rw [h1, ih, sendMessageWithTx_store, List.map_map]
    exact List.map_congr_left fun r _ => rfl

/-- The batch loop reports one outcome per item, in order — it never
stops early, whatever the individual outcomes are. -/
theorem processBatch_outcome_ids (send : List Char → List Char → Option (List Char))
    (now : Nat) (msgs : List message.Message) :
    ∀ ws : List messages.Message,
      (processBatch send now ws msgs).2.map Prod.fst = msgs.map message.Message.id := by
  induction msgs with
  | nil => intro ws; rfl
  | cons m rest ih =>
    intro ws
    have h1 : (processBatch send now ws (m :: rest)).2 =
        (m.id, (sendMessageWithTx send now ws m).2) ::
          (processBatch send now (sendMessageWithTx send now ws m).1 rest).2 := rfl
    rw [h1, List.map_cons, ih]
    rfl

/-- Unfolding of the row-wise closed form. -/
theorem rowAfter_cons (send : List Char → List Char → Option (List Char)) (now : Nat)
    (m : message.Message) (msgs : List message.Message) (r : messages.Message) :
    rowAfter send now (m :: msgs) r = rowAfter send now msgs (applySend send now m r) := rfl

/-- A row whose own delivery would fail is never modified by the batch
loop, provided every batch item carrying its id is the row itself. -/
theorem rowAfter_untouched (send : List Char → List Char → Option (List Char)) (now : Nat)
    (msgs : List message.Message) :
    ∀ r : messages.Message,
      (∀ m ∈ msgs, m.id = r.id → m = toDomainRow r) →
      send r.phoneNumber r.content = none →
      rowAfter send now msgs r = r := by
  induction msgs with
  | nil => intro r _ _; rfl
  | cons m rest ih =>
    intro r hm hs
    rw [rowAfter_cons]
    by_cases hid : m.id = r.id
    · have hmr := hm m (List.mem_cons_self m rest) hid
      have happ : applySend send now m r = r := by
        rw [hmr]
        exact applySend_of_none send now (toDomainRow r) r hs
      rw [happ]
      exact ih r (fun x hx hxe => hm x (List.mem_cons_of_mem m hx) hxe) hs
    · rw [applySend_ne send now m r hid]
      exact ih r (fun x hx hxe => hm x (List.mem_cons_of_mem m hx) hxe) hs

/-- Once a row carries its recorded outcome, further iterations (all
carrying the same reference for that id) leave it fixed. -/
theorem rowAfter_fixed_updated (send : List Char → List Char → Option (List Char)) (now : Nat)
    (msgs : List message.Message) :
    ∀ (r : messages.Message) (ref : List Char),
      (∀ m ∈ msgs, m.id = r.id → m = toDomainRow r) →
      send r.phoneNumber r.content = some ref →
      rowAfter send now msgs
          { r with messageID := some ref, processedAt := some now } =
        { r with messageID := some ref, processedAt := some now } := by
  induction msgs with
  | nil => intro r ref _ _; rfl
  | cons m rest ih =>
    intro r ref hm hs
    rw [rowAfter_cons]
    by_cases hid : m.id = r.id
    · have hmr := hm m (List.mem_cons_self m rest) hid
      have happ : applySend send now m { r with messageID := some ref, processedAt := some now } =
          { r with messageID := some ref, processedAt := some now } := by
        rw [hmr]
        rw [applySend_of_some send now (toDomainRow r)
          { r with messageID := some ref, processedAt := some now } ref hs]
        simp only [setOutcome]
        split <;> rfl
      rw [happ]
      exact ih r ref (fun x hx hxe => hm x (List.mem_cons_of_mem m hx) hxe) hs
    · rw [applySend_ne send now m
        { r with messageID := some ref, processedAt := some now } hid]
      exact ih r ref (fun x hx hxe => hm x (List.mem_cons_of_mem m hx) hxe) hs

/-- A row whose item is in the batch and whose delivery succeeds ends
with the delivery reference and completion time recorded. -/
theorem rowAfter_updated (send : List Char → List Char → Option (List Char)) (now : Nat)
    (msgs : List message.Message) :
    ∀ (r : messages.Message) (ref : List Char),
      toDomainRow r ∈ msgs →
      (∀ m ∈ msgs, m.id = r.id → m = toDomainRow r) →
      send r.phoneNumber r.content = some ref →
      rowAfter send now msgs r =
        { r with messageID := some ref, processedAt := some now } := by
  induction msgs with
  | nil => intro r ref hmem _ _; cases hmem
  | cons m rest ih =>
    intro r ref hmem hm hs
    rw [rowAfter_cons]
    by_cases hid : m.id = r.id
    · have hmr := hm m (List.mem_cons_self m rest) hid
      have happ : applySend send now m r =
          { r with messageID := some ref, processedAt := some now } := by
        rw [hmr]
        rw [applySend_of_some send now (toDomainRow r) r ref hs]
        simp only [setOutcome]
        rw [if_pos (show r.id = (toDomainRow r).id from rfl)]
      rw [happ]
      exact rowAfter_fixed_updated send now rest r ref
        (fun x hx hxe => hm x (List.mem_cons_of_mem m hx) hxe) hs
    · rw [applySend_ne send now m r hid]
      have hmem2 : toDomainRow r ∈ rest := by
        cases List.mem_cons.mp hmem with
        | inl he => exact absurd (show m.id = r.id by rw [← he]; rfl) hid
        | inr ht => exact ht
      exact ih r ref hmem2 (fun x hx hxe => hm x (List.mem_cons_of_mem m hx) hxe) hs

/-- With distinct ids in the store, a claimed batch item that carries the
id of a store row is that row's domain image. -/
theorem claimed_id_unique (store : List messages.Message) (hn : nodupIds store)
    (limit : Nat) (r : messages.Message) (hr : r ∈ store) :
    ∀ m ∈ ToDomainSlice (ListAndLockUnsent store limit),
      m.id = r.id → m = toDomainRow r := by
  intro m hm hid
  obtain ⟨c, hc, hcm⟩ := List.mem_map.mp hm
  have hcs : c ∈ store := (mem_claim_pending store limit c hc).2
  have hce : c = r := by
    apply List.inj_on_of_nodup_map hn hcs hr
    show c.id = r.id
    rw [← hcm] at hid
    exact hid
  rw [← hcm, hce]

/-- A cycle whose begin, claim and commit all succeed returns success and
commits exactly the batch loop's row-wise effect on the store. -/
theorem cycle_success_store (env : CycleEnv) (store : List messages.Message)
    (batchSize : Nat) (hb : env.beginOk = true) (hc : env.claimOk = true)
    (hk : env.commitOk = true) :
    (ProcessUnsentMessages env store batchSize).result = .ok () ∧
    (ProcessUnsentMessages env store batchSize).store =
      store.map (rowAfter env.send env.now
        (ToDomainSlice (ListAndLockUnsent store batchSize))) := by
  unfold ProcessUnsentMessages dispatchClaimed
  simp only [hb, hc, not_true_eq_false, if_false, ite_false]
  by_cases hemp : (ListAndLockUnsent store batchSize).isEmpty
  · have hnil : ListAndLockUnsent store batchSize = [] := List.isEmpty_iff.mp hemp
    simp only [hemp, if_true, ite_true, hk, hnil]
    constructor
    · rfl
    · show store = store.map (rowAfter env.send env.now (ToDomainSlice []))
      rw [show rowAfter env.send env.now (ToDomainSlice []) = fun r => r from rfl,
        List.map_id']
  · simp only [hemp, if_false, ite_false, hk, if_true, ite_true]
    exact ⟨rfl, processBatch_store env.send env.now _ store⟩

/-- C4: delivery failures are isolated — a cycle with begin/claim/commit
succeeding still commits; every store row whose delivery fails is
unchanged (no outcome recorded, pending rows stay pending with both
fields null); every claimed row whose delivery succeeds ends completed
with the returned reference and the cycle time recorded. -/
theorem c4_isolated_delivery_failure (env : CycleEnv) (store : List messages.Message)
    (batchSize : Nat) (hb : env.beginOk = true) (hc : env.claimOk = true)
    (hk : env.commitOk = true) (hn : nodupIds store) :
    (ProcessUnsentMessages env store batchSize).result = .ok () ∧
    (∀ r ∈ store, env.send r.phoneNumber r.content = none →
      r ∈ (ProcessUnsentMessages env store batchSize).store) ∧
    (∀ r ∈ ListAndLockUnsent store batchSize, ∀ ref,
      env.send r.phoneNumber r.content = some ref →
      { r with messageID := some ref, processedAt := some env.now } ∈
        (ProcessUnsentMessages env store batchSize).store) := by
  obtain ⟨hres, hstore⟩ := cycle_success_store env store batchSize hb hc hk
  refine ⟨hres, ?_, ?_⟩
  · intro r hr hsend
    rw [hstore]
    have heq : rowAfter env.send env.now
        (ToDomainSlice (ListAndLockUnsent store batchSize)) r = r :=
      rowAfter_untouched env.send env.now _ r
        (claimed_id_unique store hn batchSize r hr) hsend
    exact heq ▸ List.mem_map_of_mem _ hr
  · intro r hr ref hsend
    have hrs : r ∈ store := (mem_claim_pending store batchSize r hr).2
    rw [hstore]
    have heq : rowAfter env.send env.now
        (ToDomainSlice (ListAndLockUnsent store batchSize)) r =
        { r with messageID := some ref, processedAt := some env.now } :=
      rowAfter_updated env.send env.now _ r ref
        (List.mem_map_of_mem _ hr)
        (claimed_id_unique store hn batchSize r hrs) hsend
    exact heq ▸ List.mem_map_of_mem _ hrs

/-- C4 witness: a batch of three where only the second delivery fails —
the cycle commits, items 1 and 3 end completed, item 2 stays pending. -/
theorem c4_witness :
    (ProcessUnsentMessages
        ⟨true, true, true,
          (fun p _ => if p = "+22".data then none else some "ok".data), 9⟩
        [⟨1, "+11".data, "x".data, 1, none, none⟩,
         ⟨2, "+22".data, "y".data, 2, none, none⟩,
         ⟨3, "+33".data, "z".data, 3, none, none⟩] 3).result = .ok () ∧
    (⟨2, "+22".data, "y".data, 2, none, none⟩ : messages.Message) ∈
      (ProcessUnsentMessages
        ⟨true, true, true,
          (fun p _ => if p = "+22".data then none else some "ok".data), 9⟩
        [⟨1, "+11".data, "x".data, 1, none, none⟩,
         ⟨2, "+22".data, "y".data, 2, none, none⟩,
         ⟨3, "+33".data, "z".data, 3, none, none⟩] 3).store ∧
    (⟨1, "+11".data, "x".data, 1, some "ok".data, some 9⟩ : messages.Message) ∈
      (ProcessUnsentMessages
        ⟨true, true, true,
          (fun p _ => if p = "+22".data then none else some "ok".data), 9⟩
        [⟨1, "+11".data, "x".data, 1, none, none⟩,
         ⟨2, "+22".data, "y".data, 2, none, none⟩,
         ⟨3, "+33".data, "z".data, 3, none, none⟩] 3).store ∧
    (⟨3, "+33".data, "z".data, 3, some "ok".data, some 9⟩ : messages.Message) ∈
      (ProcessUnsentMessages
        ⟨true, true, true,
          (fun p _ => if p = "+22".data then none else some "ok".data), 9⟩
        [⟨1, "+11".data, "x".data, 1, none, none⟩,
         ⟨2, "+22".data, "y".data, 2, none, none⟩,
         ⟨3, "+33".data, "z".data, 3, none, none⟩] 3).store := by
  have h := c4_isolated_delivery_failure
    ⟨true, true, true,
      (fun p _ => if p = "+22".data then none else some "ok".data), 9⟩
    [⟨1, "+11".data, "x".data, 1, none, none⟩,
     ⟨2, "+22".data, "y".data, 2, none, none⟩,
     ⟨3, "+33".data, "z".data, 3, none, none⟩] 3 rfl rfl rfl
    (by unfold nodupIds; decide)
  exact ⟨h.1,
    h.2.1 ⟨2, "+22".data, "y".data, 2, none, none⟩ (by decide) (by decide),
    h.2.2 ⟨1, "+11".data, "x".data, 1, none, none⟩ (by decide) "ok".data (by decide),
    h.2.2 ⟨3, "+33".data, "z".data, 3, none, none⟩ (by decide) "ok".data (by decide)⟩

/-- C2 (amended): a NotFound from recording an outcome is not fatal — the
loop reports an outcome for every claimed item (it continues past the
failure), and when commit succeeds the cycle still returns success. -/
theorem c2_notfound_not_fatal (env : CycleEnv) (durable ws claimed : List messages.Message)
    (hk : env.commitOk = true) :
    (dispatchClaimed env durable ws claimed).result = .ok () ∧
    (dispatchClaimed env durable ws claimed).outcomes.map Prod.fst =
      claimed.map messages.Message.id := by
  unfold dispatchClaimed
  by_cases hemp : claimed.isEmpty
  · have hnil := List.isEmpty_iff.mp hemp
    simp only [hemp, if_true, ite_true, hk, hnil]
    exact ⟨rfl, rfl⟩
  · simp only [hemp, if_false, ite_false, hk, ite_true, Bool.false_eq_true]
    refine ⟨by trivial, ?_⟩
    rw [processBatch_outcome_ids]
    unfold ToDomainSlice
    rw [List.map_map]
    exact List.map_congr_left fun x _ => rfl

/-- C2 counterexample: with claimed item 2 vanished from the working
copy, recording its outcome reports NotFound — yet the cycle does not
abort: it continues with item 3, commits, and items 1 and 3 become
durably completed, contradicting the claim's required abort. -/
theorem c2_counterexample :
    dispatchClaimed ⟨true, true, true, fun _ _ => some "ok".data, 9⟩
      [⟨1, "+11".data, "x".data, 1, none, none⟩,
       ⟨3, "+33".data, "z".data, 3, none, none⟩]
      [⟨1, "+11".data, "x".data, 1, none, none⟩,
       ⟨3, "+33".data, "z".data, 3, none, none⟩]
      [⟨1, "+11".data, "x".data, 1, none, none⟩,
       ⟨2, "+22".data, "y".data, 2, none, none⟩,
       ⟨3, "+33".data, "z".data, 3, none, none⟩] =
      ⟨.ok (),
       [⟨1, "+11".data, "x".data, 1, some "ok".data, some 9⟩,
        ⟨3, "+33".data, "z".data, 3, some "ok".data, some 9⟩],
       [(1, .sent "ok".data), (2, .notFound), (3, .sent "ok".data)], false⟩ := by
  decide

/-- C2 witness: the amended claim applied to a one-item batch whose row
is absent from the working copy. -/
theorem c2_witness :
    (dispatchClaimed ⟨true, true, true, fun _ _ => some "k".data, 4⟩ [] []
        [⟨5, "+55".data, "w".data, 0, none, none⟩]).result = .ok () ∧
    (dispatchClaimed ⟨true, true, true, fun _ _ => some "k".data, 4⟩ [] []
        [⟨5, "+55".data, "w".data, 0, none, none⟩]).outcomes.map Prod.fst =
      [⟨5, "+55".data, "w".data, 0, none, none⟩].map messages.Message.id :=
  c2_notfound_not_fatal ⟨true, true, true, fun _ _ => some "k".data, 4⟩ [] []
    [⟨5, "+55".data, "w".data, 0, none, none⟩] rfl

end Qubit
